import Mathlib

/- Shallow embedding of src/python/wiki_disambig.py (textgrounder).
   Grid and coordinate arithmetic is embedded over the exact rationals
   (the program uses floating point); the spherical trigonometry of
   spheredist is embedded over the real numbers.  Python dicts become
   total functions updated with if-expressions; Python listdicts default
   to the empty list.  Python assert statements are modelled as stated
   preconditions of the theorems (or as Option results where noted). -/

/-- A latitude/longitude pair, as stored by the program (degrees).
The Coord class itself lives in process_article_data.py, which is not
among the sources; modelled from the spec: "Coord — pair
(lat ∈ [−90, 90], long ∈ [−180, 180))". -/
structure Coord where
  lat : ℚ
  long : ℚ
deriving DecidableEq

/-- wiki_disambig.py line 93. -/
def minimum_latitude : ℚ := -90

/-- wiki_disambig.py line 98. -/
def maximum_latitude : ℚ := 89.999999

/-- wiki_disambig.py line 99. -/
def minimum_longitude : ℚ := -180

/-- wiki_disambig.py line 100. -/
def maximum_longitude : ℚ := 179.999999

/-- The two global grid parameters: `degrees_per_region` (set in
implement_main from the options) and `Opts.width_of_stat_region`. -/
structure GridConfig where
  degrees_per_region : ℚ
  width_of_stat_region : ℕ
deriving DecidableEq

/-- coord_to_tiling_region_indices (lines 162-165): indices of the
southwest corner of the tiling region holding a coordinate. -/
def coord_to_tiling_region_indices (cfg : GridConfig) (coord : Coord) : ℤ × ℤ :=
  (⌊coord.lat / cfg.degrees_per_region⌋, ⌊coord.long / cfg.degrees_per_region⌋)

/-- coord_to_stat_region_indices (lines 169-184): indices of the
southwest tiling region of the statistical region holding a coordinate. -/
def coord_to_stat_region_indices (cfg : GridConfig) (coord : Coord) : ℤ × ℤ :=
  let subval := ((cfg.width_of_stat_region : ℚ) - 1) / 2 * cfg.degrees_per_region
  let lat0 := coord.lat - subval
  let long0 := coord.long - subval
  let lat := if lat0 < minimum_latitude then minimum_latitude else lat0
  let long := if long0 < minimum_longitude then long0 + 360 else long0
  coord_to_tiling_region_indices cfg ⟨lat, long⟩

/-- region_indices_to_coord (lines 187-188).  The indices have become
floats by the time stat_region_indices_to_center_coord multiplies, so the
arguments are rationals. -/
def region_indices_to_coord (cfg : GridConfig) (latind longind : ℚ) : Coord :=
  ⟨latind * cfg.degrees_per_region, longind * cfg.degrees_per_region⟩

/-- stat_region_indices_to_center_coord (lines 192-201): center of a
statistical region given the indices of its southwest tile. -/
def stat_region_indices_to_center_coord (cfg : GridConfig) (latind longind : ℤ) : Coord :=
  let addval : ℚ := (cfg.width_of_stat_region : ℚ) / 2
  let latq : ℚ := (latind : ℚ) + addval
  let longq : ℚ := (longind : ℚ) + addval
  let coord := region_indices_to_coord cfg latq longq
  let lat := if maximum_latitude < coord.lat then maximum_latitude else coord.lat
  let long := if maximum_longitude < coord.long then coord.long - 360 else coord.long
  ⟨lat, long⟩

/-- The center the specification describes: "add W/2 (in degrees) to both
coordinates" of the southwest corner, then clamp/wrap.  Follows the spec
words, for comparison with the source's definition above. -/
def stat_region_center_claimed (cfg : GridConfig) (latind longind : ℤ) : Coord :=
  let sw := region_indices_to_coord cfg (latind : ℚ) (longind : ℚ)
  let lat0 := sw.lat + (cfg.width_of_stat_region : ℚ) / 2
  let long0 := sw.long + (cfg.width_of_stat_region : ℚ) / 2
  ⟨if maximum_latitude < lat0 then maximum_latitude else lat0,
   if maximum_longitude < long0 then long0 - 360 else long0⟩

/-- implement_main lines 2170-2172: the maximal tiling-region indices. -/
def maximum_inds (cfg : GridConfig) : ℤ × ℤ :=
  coord_to_tiling_region_indices cfg ⟨maximum_latitude, maximum_longitude⟩

/-- implement_main lines 2173-2175: the minimal tiling-region indices. -/
def minimum_inds (cfg : GridConfig) : ℤ × ℤ :=
  coord_to_tiling_region_indices cfg ⟨minimum_latitude, minimum_longitude⟩

def maximum_latind (cfg : GridConfig) : ℤ := (maximum_inds cfg).1

def maximum_longind (cfg : GridConfig) : ℤ := (maximum_inds cfg).2

def minimum_latind (cfg : GridConfig) : ℤ := (minimum_inds cfg).1

def minimum_longind (cfg : GridConfig) : ℤ := (minimum_inds cfg).2

/- ------------------------------------------------------------------ -/
/- Spherical distance (lines 106-158), over the real numbers.          -/
/- ------------------------------------------------------------------ -/

/-- Coordinates as real numbers, for the trigonometric computation of
spheredist. -/
structure RCoord where
  lat : ℝ
  long : ℝ

/-- wiki_disambig.py line 108. -/
noncomputable def earth_radius_in_miles : ℝ := 3963.191

/-- Lines 140-147 of spheredist: the cosine of the central angle between
two coordinates, with the degree-to-radian conversions inlined. -/
noncomputable def anglecos (p1 p2 : RCoord) : ℝ :=
  Real.sin (p1.lat / 180 * Real.pi) * Real.sin (p2.lat / 180 * Real.pi)
  + Real.cos (p1.lat / 180 * Real.pi) * Real.cos (p2.lat / 180 * Real.pi)
    * Real.cos (p2.long / 180 * Real.pi - p1.long / 180 * Real.pi)

/-- Lines 148-158 of spheredist: the branch on the computed cosine value.
In the source this value is a float and can stray above 1; factoring the
branch over an arbitrary real input keeps those branches meaningful. -/
noncomputable def spheredist_from_cos (c : ℝ) : ℝ :=
  if 1 < |c| then
    if 1.000001 < |c| then 1000000 else 0
  else earth_radius_in_miles * Real.arccos c

/-- spheredist (lines 138-158); a missing coordinate (None in the
source) yields the sentinel 1000000. -/
noncomputable def spheredist : Option RCoord → Option RCoord → ℝ
  | some p1, some p2 => spheredist_from_cos (anglecos p1 p2)
  | _, _ => 1000000

/- ------------------------------------------------------------------ -/
/- Word distributions and articles (lines 203-268, 857-893)            -/
/- ------------------------------------------------------------------ -/

/-- Modelled from the spec: the WordDist base class lives in
word_distribution.py, which is not among the sources.  Only the parts the
claims touch are represented: "counts: map word→count, total_tokens,
finished: bool"; counts are kept as an association list so that equality
stays decidable.  The smoothing fields (unseen_mass and friends) are
referenced by no claim and are omitted. -/
structure WordCounts where
  counts : List (String × ℕ)
  total_tokens : ℕ
  finished : Bool
deriving DecidableEq

/-- Add a single (word, count) pair into an association list of counts. -/
def addCount : List (String × ℕ) → String × ℕ → List (String × ℕ)
  | [], p => [p]
  | (w, n) :: rest, (w2, n2) =>
    if w = w2 then (w, n + n2) :: rest else (w, n) :: addCount rest (w2, n2)

/-- A Wikipedia article as used by the geotagger: StatArticle
(lines 864-871) plus the Article base-class fields the claims need. -/
structure StatArticle where
  id : ℕ
  coord : Option Coord
  dist : Option WordCounts
  split : String
  incoming_links : Option ℕ
deriving DecidableEq

/-- RegionWordDist (lines 214-268): the distribution of a statistical
region, with the extra fields articles, num_arts, incoming_links. -/
structure RegionWordDist where
  counts : List (String × ℕ)
  total_tokens : ℕ
  finished : Bool
  articles : List StatArticle
  num_arts : ℕ
  incoming_links : ℕ
deriving DecidableEq

/-- RegionWordDist.__init__ (lines 217-221). -/
def RegionWordDist.init : RegionWordDist :=
  { counts := [], total_tokens := 0, finished := false,
    articles := [], num_arts := 0, incoming_links := 0 }

/-- RegionWordDist.is_empty (lines 223-224). -/
def RegionWordDist.is_empty (d : RegionWordDist) : Bool := d.num_arts == 0

/-- One step of the loop body of RegionWordDist.add_articles
(lines 234-247): an article without a distribution is skipped (the
source also asserts art.dist.finished there), an article outside the
'training' split is skipped, otherwise the article is appended, its word
distribution added (add_word_distribution, modelled from the spec as
summing counts and token totals), and its link count accumulated (the
source's `if art.incoming_links:` treats None and 0 alike). -/
def RegionWordDist.add_one_article (self : RegionWordDist) (art : StatArticle) :
    RegionWordDist :=
  match art.dist with
  | none => self
  | some dist =>
    if art.split ≠ "training" then self
    else
      { self with
        articles := self.articles ++ [art],
        counts := dist.counts.foldl addCount self.counts,
        total_tokens := self.total_tokens + dist.total_tokens,
        num_arts := self.num_arts + 1,
        incoming_links := self.incoming_links +
          (match art.incoming_links with | some n => n | none => 0) }

/-- RegionWordDist.add_articles (lines 227-255): fold the loop body over
the article list (the running totals num_arts/incoming_links that the
source adds at the end are accumulated per step, which sums to the same
values). -/
def RegionWordDist.add_articles (self : RegionWordDist) (arts : List StatArticle) :
    RegionWordDist :=
  arts.foldl RegionWordDist.add_one_article self

/-- RegionWordDist.finish_distribution (lines 261-268).  Modelled from
the spec: finish_word_distribution (word_distribution.py, not among the
sources) freezes the distribution; the smoothing masses it computes are
referenced by no claim and are omitted. -/
def RegionWordDist.finish_distribution (self : RegionWordDist) : RegionWordDist :=
  { self with finished := true }

/- ------------------------------------------------------------------ -/
/- Statistical regions (lines 352-469)                                 -/
/- ------------------------------------------------------------------ -/

/-- StatRegion (lines 352-383): the sentinel empty region is built as
cls(None, None), so the indices are optional. -/
structure StatRegion where
  latind : Option ℤ
  longind : Option ℤ
  worddist : RegionWordDist
deriving DecidableEq

/-- The class-level mutable state of StatRegion (lines 367-378). -/
structure StatRegionState where
  tiling_region_to_articles : ℤ × ℤ → List StatArticle
  corner_to_stat_region : ℤ × ℤ → Option StatRegion
  empty_stat_region : Option StatRegion
  all_regions_computed : Bool
  num_empty_regions : ℕ
  num_non_empty_regions : ℕ

/-- The list [a, a+1, ..., a+n-1], i.e. Python's range(a, a+n) over ℤ. -/
def intRange (a : ℤ) (n : ℕ) : List ℤ := (List.range n).map fun k => a + k

/-- Python's range(a, b+1) over ℤ, used by generate_all_nonempty_regions. -/
def intRangeIncl (a b : ℤ) : List ℤ := intRange a (b + 1 - a).toNat

/-- StatRegion.generate_dist (lines 386-413): accumulate, into a fresh
RegionWordDist, the articles of the tiles at rows reglat..reglat+W-1 and
columns reglong..reglong+W-1, where a column index beyond
maximum_longind is replaced by minimum_longind, then finish the
distribution.  (process_one_region's early return on an empty tile list
is the same as folding over the empty list.) -/
def generate_dist (cfg : GridConfig) (tiling : ℤ × ℤ → List StatArticle)
    (reglat reglong : ℤ) : RegionWordDist :=
  let wd := (intRange reglat cfg.width_of_stat_region).foldl (fun wd i =>
    (intRange reglong cfg.width_of_stat_region).foldl (fun wd j =>
      let jj := if maximum_longind cfg < j then minimum_longind cfg else j
      wd.add_articles (tiling (i, jj))) wd) RegionWordDist.init
  wd.finish_distribution

/-- The sentinel empty region of lines 430-432: cls(None, None) with a
finished (empty) word distribution. -/
def sentinelRegion : StatRegion :=
  ⟨none, none, RegionWordDist.init.finish_distribution⟩

/-- StatRegion.find_region_for_region_indices (lines 425-443), as a
state transition returning the region and the updated class state. -/
def find_region_for_region_indices (cfg : GridConfig) (s : StatRegionState)
    (latind longind : ℤ) (no_create_empty : Bool) : StatRegion × StatRegionState :=
  match s.corner_to_stat_region (latind, longind) with
  | some statreg => (statreg, s)
  | none =>
    if s.all_regions_computed then
      match s.empty_stat_region with
      | some e => (e, s)
      | none => (sentinelRegion, { s with empty_stat_region := some sentinelRegion })
    else
      let wd := generate_dist cfg s.tiling_region_to_articles latind longind
      let statreg : StatRegion := ⟨some latind, some longind, wd⟩
      let empty := wd.is_empty
      let s1 :=
        if empty then { s with num_empty_regions := s.num_empty_regions + 1 }
        else { s with num_non_empty_regions := s.num_non_empty_regions + 1 }
      let s2 :=
        if !empty || !no_create_empty then
          { s1 with corner_to_stat_region := fun k =>
              if k = (latind, longind) then some statreg
              else s1.corner_to_stat_region k }
        else s1
      (statreg, s2)

/-- StatRegion.find_region_for_coord (lines 417-420). -/
def find_region_for_coord (cfg : GridConfig) (s : StatRegionState) (coord : Coord) :
    StatRegion × StatRegionState :=
  let p := coord_to_stat_region_indices cfg coord
  find_region_for_region_indices cfg s p.1 p.2 false

/-- StatRegion.generate_all_nonempty_regions (lines 446-456). -/
def generate_all_nonempty_regions (cfg : GridConfig) (s : StatRegionState) :
    StatRegionState :=
  let s1 := (intRangeIncl (minimum_latind cfg) (maximum_latind cfg)).foldl (fun s i =>
    (intRangeIncl (minimum_longind cfg) (maximum_longind cfg)).foldl (fun s j =>
      (find_region_for_region_indices cfg s i j true).2) s) s
  { s1 with all_regions_computed := true }

/-- StatRegion.add_article_to_region (lines 461-464); the articles added
always carry a coordinate, an absent one leaves the state unchanged. -/
def add_article_to_region (cfg : GridConfig) (s : StatRegionState)
    (article : StatArticle) : StatRegionState :=
  match article.coord with
  | none => s
  | some c =>
    let p := coord_to_tiling_region_indices cfg c
    { s with tiling_region_to_articles := fun k =>
        if k = p then s.tiling_region_to_articles k ++ [article]
        else s.tiling_region_to_articles k }

/-- The accumulation the claim describes for generate_dist: the articles
of exactly the W×W block of tiles southwest-cornered at
(reglat, reglong), with longitude indices wrapped around the
antimeridian (modularly past the maximum) and latitude indices clamped
at the poles, keeping only training articles that have a distribution.
Follows the claim's words, for comparison with the source's
generate_dist. -/
def claimed_block_articles (cfg : GridConfig) (tiling : ℤ × ℤ → List StatArticle)
    (reglat reglong : ℤ) : List StatArticle :=
  ((intRange reglat cfg.width_of_stat_region).map fun i =>
    let ic := if maximum_latind cfg < i then maximum_latind cfg
      else if i < minimum_latind cfg then minimum_latind cfg else i
    ((intRange reglong cfg.width_of_stat_region).map fun j =>
      let span := maximum_longind cfg + 1 - minimum_longind cfg
      let jj := minimum_longind cfg + (j - minimum_longind cfg) % span
      (tiling (ic, jj)).filter fun a => a.dist.isSome && a.split == "training").flatten).flatten

/-- The block of articles the source's generate_dist actually
accumulates, written declaratively: rows reglat..reglat+W-1 as they are
(no clamping: a row beyond the poles holds no tiles), and each column
index beyond maximum_longind replaced by minimum_longind (so a block
that overflows by more than one column reads the minimum column
repeatedly), keeping only training articles that have a distribution. -/
def code_block_articles (cfg : GridConfig) (tiling : ℤ × ℤ → List StatArticle)
    (reglat reglong : ℤ) : List StatArticle :=
  ((intRange reglat cfg.width_of_stat_region).map fun i =>
    ((intRange reglong cfg.width_of_stat_region).map fun j =>
      (tiling (i, if maximum_longind cfg < j then minimum_longind cfg else j)).filter
        fun a => a.dist.isSome && a.split == "training").flatten).flatten

/-- The invariant relating stored regions to their keys: every region
stored in corner_to_stat_region carries the indices it is stored under.
Every state reachable from the initial state satisfies this, because
regions are only stored at line 442 under their own indices. -/
def StateInv (s : StatRegionState) : Prop :=
  ∀ k r, s.corner_to_stat_region k = some r →
    r.latind = some k.1 ∧ r.longind = some k.2

/- ------------------------------------------------------------------ -/
/- The article table (lines 648-855)                                   -/
/- ------------------------------------------------------------------ -/

/-- Python's str.lower(), modelled character-wise. -/
def strLower (s : String) : String := ⟨s.toList.map Char.toLower⟩

/-- Modelled from the spec: capfirst comes from textutil.py, which is
not among the sources; per the spec "names are stored with initial
capitalisation", it upper-cases the first character. -/
def capfirst (s : String) : String :=
  match s.toList with
  | [] => s
  | c :: rest => ⟨c.toUpper :: rest⟩

/-- The match of the regex `(.*?), (.*)$`: split at the first
occurrence of ", " (the first group is non-greedy, the second greedy). -/
def splitFirstCommaSpace : List Char → Option (List Char × List Char)
  | [] => none
  | ',' :: ' ' :: rest => some ([], rest)
  | c :: rest => (splitFirstCommaSpace rest).map fun p => (c :: p.1, p.2)

/-- Scan a reversed character list for the first "( " pattern, i.e. the
last " (" of the original string; return (reversed) what came before. -/
def scanRevForParen : List Char → Option (List Char)
  | [] => none
  | '(' :: ' ' :: more => some more.reverse
  | _ :: more => scanRevForParen more

/-- The match of the regex `(.*) \(.*\)$`: the string must end in ')'
and the greedy first group reaches to the last " (" before it. -/
def splitLastSpaceParen (l : List Char) : Option (List Char) :=
  match l.reverse with
  | ')' :: rest => scanRevForParen rest
  | _ => none

/-- compute_short_form (lines 849-855): the part before the first
", " (with the division after it), else the part before a trailing
parenthesised qualifier, else the name itself. -/
def compute_short_form (name : String) : String × Option String :=
  match splitFirstCommaSpace name.toList with
  | some (short, div) => (⟨short⟩, some ⟨div⟩)
  | none =>
    match splitLastSpaceParen name.toList with
    | some short => (⟨short⟩, none)
    | none => (name, none)

/-- The class-level tables of ArticleTable (lines 648-672). -/
structure ArticleTableState where
  short_lower_name_to_articles : String → List StatArticle
  lower_name_div_to_articles : String × String → List StatArticle
  name_to_article : String → Option StatArticle
  lower_toponym_to_article : String → List StatArticle
  lower_name_to_articles : String → List StatArticle
  articles_by_split : String → List StatArticle

/-- record_article lines 690-692: store the properly-cased name in
name_to_article and append under the lowercased name. -/
def record_name_maps (tbl : ArticleTableState) (name loname : String)
    (art : StatArticle) : ArticleTableState :=
  { tbl with
    name_to_article := fun k =>
      if k = name then some art else tbl.name_to_article k,
    lower_name_to_articles := fun k =>
      if k = loname then tbl.lower_name_to_articles k ++ [art]
      else tbl.lower_name_to_articles k }

/-- record_article lines 694-695: append under the (short, division)
compound key when the short form carries a division.  The source's
guard is Python truthiness (`if div:`), which skips None and the empty
division string alike. -/
def record_div_map (tbl : ArticleTableState) (sd : String × Option String)
    (art : StatArticle) : ArticleTableState :=
  match sd.2 with
  | some div =>
    if div ≠ "" then
      { tbl with lower_name_div_to_articles := fun k =>
          if k = (sd.1, div) then tbl.lower_name_div_to_articles k ++ [art]
          else tbl.lower_name_div_to_articles k }
    else tbl
  | none => tbl

/-- record_article line 696: append under the short form. -/
def record_short_map (tbl : ArticleTableState) (short : String)
    (art : StatArticle) : ArticleTableState :=
  { tbl with short_lower_name_to_articles := fun k =>
      if k = short then tbl.short_lower_name_to_articles k ++ [art]
      else tbl.short_lower_name_to_articles k }

/-- record_article lines 697-698: append under the lowercased toponym
unless already present. -/
def record_toponym_lo (tbl : ArticleTableState) (loname : String)
    (art : StatArticle) : ArticleTableState :=
  if art ∉ tbl.lower_toponym_to_article loname then
    { tbl with lower_toponym_to_article := fun k =>
        if k = loname then tbl.lower_toponym_to_article k ++ [art]
        else tbl.lower_toponym_to_article k }
  else tbl

/-- record_article lines 699-700: append under the short toponym when it
differs from the lowercased name and is not already present. -/
def record_toponym_short (tbl : ArticleTableState) (loname short : String)
    (art : StatArticle) : ArticleTableState :=
  if short ≠ loname ∧ art ∉ tbl.lower_toponym_to_article short then
    { tbl with lower_toponym_to_article := fun k =>
        if k = short then tbl.lower_toponym_to_article k ++ [art]
        else tbl.lower_toponym_to_article k }
  else tbl

/-- record_article lines 701-710: append into the split enumeration
only when the record is not a redirect (the set branch at line 707 is
dead: line 705 always creates a list). -/
def record_split (tbl : ArticleTableState) (art : StatArticle)
    (is_redirect : Bool) : ArticleTableState :=
  if !is_redirect then
    { tbl with articles_by_split := fun k =>
        if k = art.split then tbl.articles_by_split k ++ [art]
        else tbl.articles_by_split k }
  else tbl

/-- ArticleTable.record_article (lines 687-710), as the composition of
its successive statements, in source order.  The source's
`assert name == capfirst(name)` is modelled as the None result. -/
def record_article (tbl : ArticleTableState) (name : String) (art : StatArticle)
    (is_redirect : Bool) : Option ArticleTableState :=
  if name ≠ capfirst name then none
  else
    let loname := strLower name
    let sd := compute_short_form loname
    some (record_split
      (record_toponym_short
        (record_toponym_lo
          (record_short_map
            (record_div_map (record_name_maps tbl name loname art) sd art)
            sd.1 art)
          loname art)
        loname sd.1 art)
      art is_redirect)

/- ------------------------------------------------------------------ -/
/- Gazetteer matching of localities (lines 497-518, 730-808, 1916-1932)-/
/- ------------------------------------------------------------------ -/

/-- A gazetteer Locality (lines 497-508) restricted to the fields the
matching code reads: its canonical name, alternate names, coordinate,
and the path of its enclosing division (empty when loc.div is None). -/
structure Locality where
  name : String
  altnames : List String
  coord : Coord
  divpath : List String

/-- Insert an element into a list sorted so that preferred elements come
first. -/
def insertPreferred (prefer : StatArticle → StatArticle → Bool) (a : StatArticle) :
    List StatArticle → List StatArticle
  | [] => [a]
  | b :: rest =>
    if prefer a b then a :: b :: rest else b :: insertPreferred prefer a rest

/-- Python's `sorted(goodarts, cmp=(lambda x,y: 1 if prefer_match(loc,x,y)
else -1), reverse=True)` (lines 761-763) places preferred elements first;
it is modelled as an insertion sort by the preference relation.  Only the
membership of the result is relied on (which ties are returned first is
the sorting algorithm's business in the source too, since the comparator
never reports equality). -/
def sortByPreferred (prefer : StatArticle → StatArticle → Bool) :
    List StatArticle → List StatArticle
  | [] => []
  | a :: rest => insertPreferred prefer a (sortByPreferred prefer rest)

/-- The division stage of find_one_wikipedia_match (lines 744-747): for
each division name on the location's path, the first article under the
(name, division) key that passes check_match wins. -/
def findDivMatch (tbl : ArticleTableState) (loname : String)
    (check : StatArticle → Bool) : List String → Option StatArticle
  | [] => none
  | d :: rest =>
    match (tbl.lower_name_div_to_articles (loname, strLower d)).find? check with
    | some art => some art
    | none => findDivMatch tbl loname check rest

/-- ArticleTable.find_one_wikipedia_match (lines 731-767). -/
def find_one_wikipedia_match (tbl : ArticleTableState) (loc : Locality)
    (name : String) (check : StatArticle → Bool)
    (prefer : StatArticle → StatArticle → Bool) : Option StatArticle :=
  let loname := strLower name
  match (tbl.lower_name_to_articles loname).find? check with
  | some art => some art
  | none =>
    match findDivMatch tbl loname check loc.divpath with
    | some art => some art
    | none =>
      let arts := tbl.short_lower_name_to_articles loname
      if arts.isEmpty then none
      else
        let goodarts := arts.filter check
        if goodarts.length = 1 then goodarts.head?
        else if 1 < goodarts.length then (sortByPreferred prefer goodarts).head?
        else none

/-- The alternate-name loop of find_wikipedia_match (lines 780-783). -/
def findAltNameMatch (tbl : ArticleTableState) (loc : Locality)
    (check : StatArticle → Bool) (prefer : StatArticle → StatArticle → Bool) :
    List String → Option StatArticle
  | [] => none
  | n :: rest =>
    match find_one_wikipedia_match tbl loc n check prefer with
    | some m => some m
    | none => findAltNameMatch tbl loc check prefer rest

/-- ArticleTable.find_wikipedia_match (lines 773-786): the canonical
name first, then each alternate name in turn. -/
def find_wikipedia_match (tbl : ArticleTableState) (loc : Locality)
    (check : StatArticle → Bool) (prefer : StatArticle → StatArticle → Bool) :
    Option StatArticle :=
  match find_one_wikipedia_match tbl loc loc.name check prefer with
  | some m => some m
  | none => findAltNameMatch tbl loc check prefer loc.altnames

/-- The distance the matching predicates apply: spheredist of the
locality's coordinate and the article's optional coordinate, where an
article without coordinate is 1000000 miles away (spheredist's None
branch).  The great-circle distance itself is transcendental, so it is
abstracted as the parameter d; the matching logic never looks inside
it. -/
def distOpt (d : Coord → Coord → ℚ) : Coord → Option Coord → ℚ
  | _, none => 1000000
  | c1, some c2 => d c1 c2

/-- ArticleTable.find_match_for_locality (lines 792-808): check_match
accepts an article within maxdist of the locality, prefer_match prefers
the strictly nearer article. -/
def find_match_for_locality (d : Coord → Coord → ℚ) (tbl : ArticleTableState)
    (loc : Locality) (maxdist : ℚ) : Option StatArticle :=
  let check := fun art => decide (distOpt d loc.coord art.coord ≤ maxdist)
  let prefer := fun art1 art2 =>
    decide (distOpt d loc.coord art1.coord < distOpt d loc.coord art2.coord)
  find_wikipedia_match tbl loc check prefer

/-- The ring-expansion loop of WorldGazetteer.match_world_gazetteer_entry
(lines 1917-1923): while maxdist does not exceed the limit, look for a
match at radius maxdist; the first hit stops the loop, otherwise the
radius doubles.  The source's while loop terminates because the radius
doubles from 5, so a fuel argument bounds the iterations; any fuel with
5 * 2^fuel > limit reproduces the loop exactly. -/
def match_loop (d : Coord → Coord → ℚ) (tbl : ArticleTableState) (loc : Locality)
    (limit : ℚ) : ℚ → ℕ → Option StatArticle
  | _, 0 => none
  | maxdist, fuel + 1 =>
    if maxdist ≤ limit then
      match find_match_for_locality d tbl loc maxdist with
      | some m => some m
      | none => match_loop d tbl loc limit (maxdist * 2) fuel
    else none

/-- The ring search of match_world_gazetteer_entry, starting as the
source does at maxdist = 5. -/
def gazetteer_ring_search (d : Coord → Coord → ℚ) (tbl : ArticleTableState)
    (loc : Locality) (limit : ℚ) (fuel : ℕ) : Option StatArticle :=
  match_loop d tbl loc limit 5 fuel

/-- Trying an explicit list of radii in order, first hit wins: the shape
the claim gives to the ring search (5, 10, 20, 40, 80). -/
def first_hit (d : Coord → Coord → ℚ) (tbl : ArticleTableState) (loc : Locality) :
    List ℚ → Option StatArticle
  | [] => none
  | r :: rest =>
    match find_match_for_locality d tbl loc r with
    | some m => some m
    | none => first_hit d tbl loc rest

/- ------------------------------------------------------------------ -/
/- Toponym scoring strategies (lines 1297-1374, 1529-1540)             -/
/- ------------------------------------------------------------------ -/

/-- A toponym occurrence with its context words: pairs of (distance from
the toponym, word), as built by yield_documents. -/
structure Geogword where
  word : String
  context : List (ℤ × String)

/-- The options compute_score reads. -/
structure NBOpts where
  naive_bayes_weighting : String
  baseline_weight : ℚ
  preserve_case_words : Bool

/-- get_adjusted_incoming_links (lines 1529-1540): a missing link count
counts as 0, and a zero count becomes 0.01 so that its logarithm is
defined. -/
def get_adjusted_incoming_links (art : StatArticle) : ℚ :=
  let thislinks : ℚ := match art.incoming_links with
    | none => 0
    | some n => (n : ℚ)
  if thislinks = 0 then 0.01 else thislinks

/-- LinkBaselineStrategy.compute_score (lines 1311-1312). -/
def LinkBaselineStrategy.compute_score (_geogword : Geogword) (art : StatArticle) : ℚ :=
  get_adjusted_incoming_links art

/-- The FIRST binding of compute_score in the NaiveBayesStrategy class
body (lines 1324-1368): the weighted naive-Bayes combination the class
comment and the spec describe.  The word-probability lookup (the chosen
distobj's lookup_word, from word_distribution.py which is not among the
sources) and the real logarithm are abstracted as the parameters lookup
and log.  Note that the source body reads `self.strategy.use_baseline`
and `self.opts`, attributes a NaiveBayesStrategy instance does not even
have; here use_baseline is the constructor argument as intended.  This
binding is SHADOWED inside the class body by the duplicate definition at
lines 1373-1374, so it is not the method the class exposes. -/
def NaiveBayesStrategy.compute_score_first_binding (opts : NBOpts)
    (use_baseline : Bool) (log : ℚ → ℚ) (lookup : String → ℚ)
    (geogword : Geogword) (art : StatArticle) : ℚ :=
  let thislinks := get_adjusted_incoming_links art
  let weights : ℚ × ℚ :=
    if !use_baseline then (1, 0)
    else if opts.naive_bayes_weighting = "equal" then (1, 1)
    else (1 - opts.baseline_weight, opts.baseline_weight)
  let word_weight := weights.1
  let baseline_weight := weights.2
  let acc : ℚ × ℚ := geogword.context.foldl (fun acc dw =>
    let word := if opts.preserve_case_words then dw.2 else strLower dw.2
    let wordprob := lookup word
    let thisweight : ℚ :=
      if opts.naive_bayes_weighting = "equal"
          ∨ opts.naive_bayes_weighting = "equal-words" then 1
      else 1 / (1 + (dw.1 : ℚ))
    (acc.1 + thisweight * log wordprob, acc.2 + thisweight)) (0, 0)
  let totalprob := if 0 < acc.2 then acc.1 / acc.2 else acc.1
  word_weight * totalprob + baseline_weight * log thislinks

/-- The SECOND binding of compute_score in the NaiveBayesStrategy class
body (lines 1373-1374).  A Python class body executes sequentially and
the later binding of a name wins, so THIS is the method
NaiveBayesStrategy exposes as compute_score: it returns the adjusted
incoming-link count and ignores the context entirely. -/
def NaiveBayesStrategy.compute_score (_geogword : Geogword) (art : StatArticle) : ℚ :=
  get_adjusted_incoming_links art

/- ------------------------------------------------------------------ -/
/- The Eval accumulator (lines 899-921)                                -/
/- ------------------------------------------------------------------ -/

/-- Eval (lines 899-921): the three instance counters, plus the
per-reason counters installed by __init__ (modelled as one map). -/
structure Eval where
  total_instances : ℕ
  correct_instances : ℕ
  incorrect_instances : ℕ
  reason_counts : String → ℕ

/-- Eval.record_result (lines 911-918). -/
def Eval.record_result (e : Eval) (correct : Bool) (reason : Option String) : Eval :=
  let e1 := { e with total_instances := e.total_instances + 1 }
  if correct then
    { e1 with correct_instances := e1.correct_instances + 1 }
  else
    let e2 := { e1 with incorrect_instances := e1.incorrect_instances + 1 }
    match reason with
    | none => e2
    | some r =>
      { e2 with reason_counts := fun k =>
          if k = r then e2.reason_counts k + 1 else e2.reason_counts k }

/-- The invariant of the claim: the instances recorded are exactly the
correct ones plus the incorrect ones. -/
def EvalInv (e : Eval) : Prop :=
  e.total_instances = e.correct_instances + e.incorrect_instances

/- ------------------------------------------------------------------ -/
/- Divisions (lines 541-635)                                           -/
/- ------------------------------------------------------------------ -/

/-- A Division (lines 541-555) restricted to the fields
note_point_seen_in_division touches.  Localities are identified by a
numeric id; the parent division (the source's `div` object reference) is
recorded by its path, the key under which it is stored. -/
structure DivisionRec where
  name : String
  path : List String
  level : ℕ
  locs : List ℕ
  parent : Option (List String)
deriving DecidableEq

/-- The class-level state note_point_seen_in_division updates:
Division.path_to_division (line 546) and
Gazetteer.lower_toponym_to_division (line 633). -/
structure GazDivState where
  path_to_division : List String → Option DivisionRec
  lower_toponym_to_division : String → List (List String)

/-- The non-recursive tail of note_point_seen_in_division
(lines 619-635), applied after the ancestors have been noted: skip a
path whose last element is empty (returning the next-higher division),
otherwise get or create the division of the path (a created division is
also registered under its lowercased name, line 633) and append the
location to its locs (line 634). -/
def note_point_finish (s1 : GazDivState) (higherdiv : Option (List String))
    (loc : ℕ) (path : List String) : Option (List String) × GazDivState :=
  if path.getLastD "" = "" then (higherdiv, s1)
  else
    let ds :=
      match s1.path_to_division path with
      | some division => (division, s1)
      | none =>
        let division : DivisionRec :=
          { name := path.getLastD "", path := path, level := path.length,
            locs := [], parent := higherdiv }
        (division,
          { s1 with
            path_to_division := fun k =>
              if k = path then some division else s1.path_to_division k,
            lower_toponym_to_division := fun k =>
              if k = strLower (path.getLastD "") then
                s1.lower_toponym_to_division k ++ [path]
              else s1.lower_toponym_to_division k })
    let division := ds.1
    let s2 := ds.2
    let division2 := { division with locs := division.locs ++ [loc] }
    (some path,
      { s2 with path_to_division := fun k =>
          if k = path then some division2 else s2.path_to_division k })

/-- Division.note_point_seen_in_division (lines 613-635): recursively
note the location in the next-higher division (every proper ancestor
prefix of the path), then handle the path itself.  Returns the
division's key (the source returns the Division object). -/
def note_point_seen_in_division (s : GazDivState) (loc : ℕ) :
    (path : List String) → Option (List String) × GazDivState
  | [] => (none, s)
  | p0 :: prest =>
    let path := p0 :: prest
    let hs :=
      if 1 < path.length then note_point_seen_in_division s loc path.dropLast
      else (none, s)
    note_point_finish hs.2 hs.1 loc path
termination_by path => path.length
decreasing_by
  simp [List.length_dropLast]

/-- The radii the ring-expansion loop tries: starting radius, doubling,
while the radius does not exceed the limit, cut off by the fuel. -/
def ring_radii (limit : ℚ) : ℚ → ℕ → List ℚ
  | _, 0 => []
  | maxdist, fuel + 1 =>
    if maxdist ≤ limit then maxdist :: ring_radii limit (maxdist * 2) fuel else []

/- ------------------------------------------------------------------ -/
/- Concrete instances used by the counterexamples and witnesses        -/
/- ------------------------------------------------------------------ -/

/-- An article with 100 incoming links and no distribution. -/
def artC1 : StatArticle := ⟨1, none, none, "test", some 100⟩

/-- A toponym occurrence with an empty context window. -/
def gwC1 : Geogword := ⟨"springfield", []⟩

/-- A 1-degree grid with 1×1 statistical regions. -/
def cfgC2 : GridConfig := ⟨1, 1⟩

/-- A grid state after generate_all_nonempty_regions on an empty corpus:
the flag is set and no region is stored. -/
def sC2 : StatRegionState := ⟨fun _ => [], fun _ => none, none, true, 0, 0⟩

/-- A region stored under its own indices (0, 0). -/
def regC2 : StatRegion := ⟨some 0, some 0, RegionWordDist.init.finish_distribution⟩

/-- A built grid state holding one region, stored at (0, 0). -/
def sC2w : StatRegionState :=
  ⟨fun _ => [], fun k => if k = (0, 0) then some regC2 else none, none, true, 1, 1⟩

/-- A 1-degree grid with 3×3 statistical regions. -/
def cfgC3 : GridConfig := ⟨1, 3⟩

/-- A training article with a one-word distribution. -/
def artC3 : StatArticle := ⟨2, some ⟨0, -180⟩, some ⟨[("w", 1)], 1, true⟩, "training", none⟩

/-- A tile map with a single article, on the tile at the antimeridian. -/
def tilingC3 : ℤ × ℤ → List StatArticle := fun k => if k = (0, -180) then [artC3] else []

/-- A built grid state with no stored regions, for the sentinel claim. -/
def sC4 : StatRegionState := ⟨fun _ => [], fun _ => none, none, true, 2, 3⟩

/-- A distance function for exercising the matching logic: everything is
at distance 0. -/
def dC6 : Coord → Coord → ℚ := fun _ _ => 0

/-- A candidate article for the ring-search witness. -/
def artC6 : StatArticle := ⟨4, some ⟨40, -74⟩, none, "test", none⟩

/-- An article table whose only entry is artC6 under "springfield". -/
def tblC6 : ArticleTableState :=
  ⟨fun _ => [], fun _ => [], fun _ => none, fun _ => [],
   fun n => if n = "springfield" then [artC6] else [], fun _ => []⟩

/-- The locality for the ring-search witness. -/
def locC6 : Locality := ⟨"Springfield", [], ⟨40, -74⟩, []⟩

/-- An empty article table, for the redirect witness. -/
def tblC8 : ArticleTableState :=
  ⟨fun _ => [], fun _ => [], fun _ => none, fun _ => [], fun _ => [], fun _ => []⟩

/-- The article recorded by the redirect witness. -/
def artC8 : StatArticle := ⟨3, none, none, "dev", none⟩

/-- A fresh evaluation accumulator. -/
def evalC9 : Eval := ⟨0, 0, 0, fun _ => 0⟩

/-- An empty division state. -/
def sC10 : GazDivState := ⟨fun _ => none, fun _ => []⟩


/- ================================================================== -/
/- Theorems                                                            -/
/- ================================================================== -/

/-- The cosine of the central angle from a point to itself is exactly 1
(in exact arithmetic). -/
theorem anglecos_self (p : RCoord) : anglecos p p = 1 := by
  unfold anglecos
  rw [sub_self, Real.cos_zero, mul_one, ← pow_two, ← pow_two]
  exact Real.sin_sq_add_cos_sq _

/-- Claim C5: spheredist clamps the computed cosine of the central
angle: a cosine of absolute value above 1.000001 yields the sentinel
1000000.0; one whose absolute value exceeds 1 by at most 0.000001 yields
0; spheredist on two present coordinates is exactly the branch on their
computed cosine; and the distance of any coordinate to itself is 0 (its
exact cosine is 1 and the radius times arccos 1 is 0). -/
theorem spheredist_clamps_cosine_and_self_is_zero :
    (∀ c : ℝ, 1.000001 < |c| → spheredist_from_cos c = 1000000)
    ∧ (∀ c : ℝ, 1 < |c| → |c| ≤ 1.000001 → spheredist_from_cos c = 0)
    ∧ (∀ p q : RCoord, spheredist (some p) (some q) = spheredist_from_cos (anglecos p q))
    ∧ (∀ p : RCoord, spheredist (some p) (some p) = 0) := by
  refine ⟨?_, ?_, fun p q => rfl, ?_⟩
  · intro c h
    have h0 : (1 : ℝ) < 1.000001 := by norm_num
    have h1 : (1 : ℝ) < |c| := lt_trans h0 h
    simp only [spheredist_from_cos, if_pos h1, if_pos h]
  · intro c h1 h2
    simp only [spheredist_from_cos, if_pos h1, if_neg (not_lt.mpr h2)]
  · intro p
    show spheredist_from_cos (anglecos p p) = 0
    rw [anglecos_self]
    simp only [spheredist_from_cos, abs_one]
    rw [if_neg (lt_irrefl 1), Real.arccos_one, mul_zero]

/-- Witness for C5: the clamping branches fire at the concrete cosine
values 2 and 1.0000005, and spheredist of the origin to itself is 0. -/
theorem spheredist_clamps_cosine_witness :
    ((1.000001 : ℝ) < |(2 : ℝ)| ∧ spheredist_from_cos 2 = 1000000)
    ∧ ((1 : ℝ) < |(1.0000005 : ℝ)| ∧ |(1.0000005 : ℝ)| ≤ 1.000001
        ∧ spheredist_from_cos 1.0000005 = 0)
    ∧ spheredist (some ⟨0, 0⟩) (some ⟨0, 0⟩) = 0 := by
  have h2 : |(2 : ℝ)| = 2 := abs_of_pos (by norm_num)
  have h3 : |(1.0000005 : ℝ)| = 1.0000005 := abs_of_pos (by norm_num)
  refine ⟨⟨by rw [h2]; norm_num,
          spheredist_clamps_cosine_and_self_is_zero.1 2 (by rw [h2]; norm_num)⟩,
          ⟨by rw [h3]; norm_num, by rw [h3]; norm_num,
          spheredist_clamps_cosine_and_self_is_zero.2.1 1.0000005
            (by rw [h3]; norm_num) (by rw [h3]; norm_num)⟩,
          spheredist_clamps_cosine_and_self_is_zero.2.2.2 ⟨0, 0⟩⟩

/-- Counterexample to C7 as stated: with 2-degree tiles and W = 1, the
source's center for region (0, 0) is (1, 1) — the southwest corner
shifted by (W/2)·degrees_per_region = 1 degree — while the southwest
corner shifted by W/2 = 0.5 degrees, as the claim reads, is (0.5, 0.5). -/
theorem stat_region_center_counterexample :
    stat_region_indices_to_center_coord ⟨2, 1⟩ 0 0 = ⟨1, 1⟩
    ∧ stat_region_center_claimed ⟨2, 1⟩ 0 0 = ⟨1/2, 1/2⟩
    ∧ stat_region_indices_to_center_coord ⟨2, 1⟩ 0 0 ≠ stat_region_center_claimed ⟨2, 1⟩ 0 0 := by
  refine ⟨?_, ?_, ?_⟩ <;>
    norm_num [stat_region_indices_to_center_coord, stat_region_center_claimed,
      region_indices_to_coord, maximum_latitude, maximum_longitude, Coord.mk.injEq]

/-- Claim C7 as amended: the center is the southwest-corner coordinate
shifted by (W/2)·degrees_per_region — that is, by W/2 tiling regions —
on both axes, with the latitude clamped at maximum_latitude and the
longitude wrapped by -360 when it passes maximum_longitude. -/
theorem stat_region_center_shifted_by_half_width :
    ∀ (cfg : GridConfig) (latind longind : ℤ),
      stat_region_indices_to_center_coord cfg latind longind =
        let sw := region_indices_to_coord cfg (latind : ℚ) (longind : ℚ)
        let lat0 := sw.lat + (cfg.width_of_stat_region : ℚ) / 2 * cfg.degrees_per_region
        let long0 := sw.long + (cfg.width_of_stat_region : ℚ) / 2 * cfg.degrees_per_region
        ⟨if maximum_latitude < lat0 then maximum_latitude else lat0,
         if maximum_longitude < long0 then long0 - 360 else long0⟩ := by
  intro cfg latind longind
  have h : ∀ x : ℚ,
      (x + (cfg.width_of_stat_region : ℚ) / 2) * cfg.degrees_per_region =
        x * cfg.degrees_per_region +
          (cfg.width_of_stat_region : ℚ) / 2 * cfg.degrees_per_region := by
    intro x; ring
  simp only [stat_region_indices_to_center_coord, region_indices_to_coord, h]

/-- A single record_result keeps the books: the total rises by one and
exactly one of the two outcome counters rises by one. -/
theorem record_result_step (e : Eval) (c : Bool) (r : Option String) :
    (e.record_result c r).total_instances = e.total_instances + 1
    ∧ (c = true → (e.record_result c r).correct_instances = e.correct_instances + 1
        ∧ (e.record_result c r).incorrect_instances = e.incorrect_instances)
    ∧ (c = false → (e.record_result c r).incorrect_instances = e.incorrect_instances + 1
        ∧ (e.record_result c r).correct_instances = e.correct_instances) := by
  cases c <;> cases r <;> simp [Eval.record_result]

/-- record_result preserves the accounting invariant
total = correct + incorrect. -/
theorem record_result_keeps_inv (e : Eval) (c : Bool) (r : Option String)
    (h : EvalInv e) : EvalInv (e.record_result c r) := by
  cases c <;> cases r <;> simp [Eval.record_result, EvalInv] at h ⊢ <;> omega

/-- Claim C9: every record_result call increments total_instances by one
and exactly one of correct_instances/incorrect_instances, so the
invariant total = correct + incorrect is preserved by every call and by
every recorded sequence. -/
theorem record_result_accounting (e : Eval) (c : Bool) (r : Option String)
    (rs : List (Bool × Option String)) (h : EvalInv e) :
    (e.record_result c r).total_instances = e.total_instances + 1
    ∧ (c = true → (e.record_result c r).correct_instances = e.correct_instances + 1
        ∧ (e.record_result c r).incorrect_instances = e.incorrect_instances)
    ∧ (c = false → (e.record_result c r).incorrect_instances = e.incorrect_instances + 1
        ∧ (e.record_result c r).correct_instances = e.correct_instances)
    ∧ EvalInv (e.record_result c r)
    ∧ EvalInv (rs.foldl (fun acc p => acc.record_result p.1 p.2) e) := by
  refine ⟨(record_result_step e c r).1, (record_result_step e c r).2.1,
    (record_result_step e c r).2.2, record_result_keeps_inv e c r h, ?_⟩
  induction rs generalizing e with
  | nil => exact h
  | cons p rest ih => exact ih _ (record_result_keeps_inv e p.1 p.2 h)

/-- Witness for C9 at a fresh accumulator and a two-element history. -/
theorem record_result_accounting_witness :
    EvalInv evalC9
    ∧ EvalInv (evalC9.record_result true none)
    ∧ EvalInv ([(false, some "err"), (true, none)].foldl
        (fun acc p => acc.record_result p.1 p.2) evalC9) := by
  have h : EvalInv evalC9 := rfl
  exact ⟨h, (record_result_accounting evalC9 true none [] h).2.2.2.1,
    (record_result_accounting evalC9 true none [(false, some "err"), (true, none)] h).2.2.2.2⟩

/-- Claim C1 (a defect in the source): the NaiveBayesStrategy class body
binds compute_score twice, and the binding the class exposes is the
second one, which returns the adjusted incoming-link count for every
context; the claimed weighted combination is the first, shadowed,
binding, and the two disagree at an article with 100 incoming links and
an empty context window (100 against 0), whatever logarithm and word
lookup are used. -/
theorem naive_bayes_compute_score_is_link_count :
    (∀ gw art, NaiveBayesStrategy.compute_score gw art = get_adjusted_incoming_links art)
    ∧ NaiveBayesStrategy.compute_score gwC1 artC1 = 100
    ∧ (∀ (opts : NBOpts) (log : ℚ → ℚ) (lookup : String → ℚ),
        NaiveBayesStrategy.compute_score_first_binding opts false log lookup gwC1 artC1 = 0)
    ∧ (∀ (opts : NBOpts) (log : ℚ → ℚ) (lookup : String → ℚ),
        NaiveBayesStrategy.compute_score gwC1 artC1 ≠
          NaiveBayesStrategy.compute_score_first_binding opts false log lookup gwC1 artC1) := by
  have h0 : NaiveBayesStrategy.compute_score gwC1 artC1 = 100 := by decide
  have h1 : ∀ (opts : NBOpts) (log : ℚ → ℚ) (lookup : String → ℚ),
      NaiveBayesStrategy.compute_score_first_binding opts false log lookup gwC1 artC1 = 0 := by
    intro opts log lookup
    simp [NaiveBayesStrategy.compute_score_first_binding, gwC1]
  refine ⟨fun gw art => rfl, h0, h1, fun opts log lookup => ?_⟩
  rw [h0, h1 opts log lookup]
  norm_num

/-- A lookup hit returns the stored region and leaves the state alone
(lines 427, 443). -/
theorem find_indices_hit (cfg : GridConfig) (s : StatRegionState) (i j : ℤ)
    (b : Bool) (r : StatRegion) (hc : s.corner_to_stat_region (i, j) = some r) :
    find_region_for_region_indices cfg s i j b = (r, s) := by
  simp only [find_region_for_region_indices, hc]

/-- Before generate_all has run, a miss constructs a region carrying the
requested indices (line 434). -/
theorem find_indices_create (cfg : GridConfig) (s : StatRegionState) (i j : ℤ)
    (b : Bool) (hc : s.corner_to_stat_region (i, j) = none)
    (hflag : s.all_regions_computed = false) :
    (find_region_for_region_indices cfg s i j b).1.latind = some i
    ∧ (find_region_for_region_indices cfg s i j b).1.longind = some j := by
  simp only [find_region_for_region_indices, hc, hflag, Bool.false_eq_true,
    if_false]
  constructor <;> trivial

/-- After generate_all has run, the first miss constructs and memoizes
the sentinel (lines 429-433). -/
theorem find_sentinel_first (cfg : GridConfig) (s : StatRegionState) (i j : ℤ)
    (b : Bool) (hc : s.all_regions_computed = true)
    (hmiss : s.corner_to_stat_region (i, j) = none)
    (hemp : s.empty_stat_region = none) :
    find_region_for_region_indices cfg s i j b =
      (sentinelRegion, { s with empty_stat_region := some sentinelRegion }) := by
  simp only [find_region_for_region_indices, hmiss, hc, hemp, if_true]

/-- After generate_all has run and the sentinel exists, a miss returns
the memoized sentinel and leaves the state alone (lines 429-433). -/
theorem find_sentinel_memoized (cfg : GridConfig) (s : StatRegionState) (i j : ℤ)
    (b : Bool) (hc : s.all_regions_computed = true)
    (hmiss : s.corner_to_stat_region (i, j) = none)
    (hemp : s.empty_stat_region = some sentinelRegion) :
    find_region_for_region_indices cfg s i j b = (sentinelRegion, s) := by
  simp only [find_region_for_region_indices, hmiss, hc, hemp, if_true]

/-- Counterexample to C2 as stated: in a state where the grid has been
built and no region is stored (an empty training corpus), the region
returned for the coordinate (1/2, 1/2) is the sentinel, whose southwest
indices are (None, None), not coord_to_stat_region_indices = (0, 0). -/
theorem find_region_for_coord_counterexample :
    StateInv sC2
    ∧ sC2.all_regions_computed = true
    ∧ coord_to_stat_region_indices cfgC2 ⟨1/2, 1/2⟩ = (0, 0)
    ∧ (find_region_for_coord cfgC2 sC2 ⟨1/2, 1/2⟩).1.latind = none
    ∧ (find_region_for_coord cfgC2 sC2 ⟨1/2, 1/2⟩).1.latind ≠
        some (coord_to_stat_region_indices cfgC2 ⟨1/2, 1/2⟩).1 := by
  have hidx : coord_to_stat_region_indices cfgC2 ⟨1/2, 1/2⟩ = (0, 0) := by
    norm_num [coord_to_stat_region_indices, coord_to_tiling_region_indices,
      minimum_latitude, minimum_longitude, cfgC2]
  have hfind : (find_region_for_coord cfgC2 sC2 ⟨1/2, 1/2⟩).1.latind = none := by
    simp only [find_region_for_coord]
    rw [find_sentinel_first cfgC2 sC2 _ _ false rfl rfl rfl]
    rfl
  refine ⟨fun k r h => by simp [sC2] at h, rfl, hidx, hfind, ?_⟩
  rw [hfind]
  simp

/-- Claim C2 as amended: whenever the grid has not yet been built, or a
region is actually stored for the coordinate's statistical-region
indices, the region returned by find_region_for_coord carries exactly
those southwest-tile indices (for a miss after the grid is built the
shared sentinel, indexed (None, None), is returned instead). -/
theorem find_region_for_coord_returns_matching_indices
    (cfg : GridConfig) (s : StatRegionState) (c : Coord) (hinv : StateInv s)
    (h : s.all_regions_computed = false ∨
      (s.corner_to_stat_region (coord_to_stat_region_indices cfg c)).isSome = true) :
    (find_region_for_coord cfg s c).1.latind
        = some (coord_to_stat_region_indices cfg c).1
    ∧ (find_region_for_coord cfg s c).1.longind
        = some (coord_to_stat_region_indices cfg c).2 := by
  cases hc : s.corner_to_stat_region (coord_to_stat_region_indices cfg c) with
  | some r =>
    have hr := hinv _ r hc
    have heq : find_region_for_coord cfg s c = (r, s) := by
      simp only [find_region_for_coord]
      exact find_indices_hit cfg s _ _ false r hc
    rw [heq]
    exact hr
  | none =>
    rcases h with hflag | hsome
    · simp only [find_region_for_coord]
      exact find_indices_create cfg s _ _ false hc hflag
    · rw [hc] at hsome
      simp at hsome

/-- Witness for C2 (amended): a built grid holding a region stored at
(0, 0) returns that region, whose indices match, for (1/2, 1/2). -/
theorem find_region_for_coord_matching_indices_witness :
    StateInv sC2w
    ∧ (find_region_for_coord cfgC2 sC2w ⟨1/2, 1/2⟩).1.latind
        = some (coord_to_stat_region_indices cfgC2 ⟨1/2, 1/2⟩).1 := by
  have hinv : StateInv sC2w := by
    intro k r h
    by_cases hk : k = (0, 0)
    · subst hk
      simp only [sC2w, if_pos rfl] at h
      cases h
      exact ⟨rfl, rfl⟩
    · simp only [sC2w, if_neg hk] at h
      cases h
  have hidx : coord_to_stat_region_indices cfgC2 ⟨1/2, 1/2⟩ = (0, 0) := by
    norm_num [coord_to_stat_region_indices, coord_to_tiling_region_indices,
      minimum_latitude, minimum_longitude, cfgC2]
  refine ⟨hinv, (find_region_for_coord_returns_matching_indices cfgC2 sC2w
    ⟨1/2, 1/2⟩ hinv (Or.inr ?_)).1⟩
  rw [hidx]
  simp [sC2w, regC2]

/-- Claim C4: once all_regions_computed is set, a miss in
corner_to_stat_region stores nothing there and returns the single shared
sentinel empty region — whose word distribution is finished and empty
and whose indices are (None, None) — and any further miss returns that
very sentinel with the state untouched. -/
theorem find_after_generate_all_returns_shared_sentinel
    (cfg : GridConfig) (s : StatRegionState) (i j : ℤ) (b : Bool)
    (hc : s.all_regions_computed = true)
    (hmiss : s.corner_to_stat_region (i, j) = none)
    (hempty : s.empty_stat_region = none ∨ s.empty_stat_region = some sentinelRegion) :
    (find_region_for_region_indices cfg s i j b).1 = sentinelRegion
    ∧ (find_region_for_region_indices cfg s i j b).2.corner_to_stat_region
        = s.corner_to_stat_region
    ∧ (find_region_for_region_indices cfg s i j b).2.empty_stat_region
        = some sentinelRegion
    ∧ (find_region_for_region_indices cfg s i j b).2.all_regions_computed = true
    ∧ (find_region_for_region_indices cfg s i j b).2.tiling_region_to_articles
        = s.tiling_region_to_articles
    ∧ (find_region_for_region_indices cfg s i j b).2.num_empty_regions
        = s.num_empty_regions
    ∧ (find_region_for_region_indices cfg s i j b).2.num_non_empty_regions
        = s.num_non_empty_regions
    ∧ sentinelRegion.latind = none
    ∧ sentinelRegion.longind = none
    ∧ sentinelRegion.worddist.finished = true
    ∧ sentinelRegion.worddist.is_empty = true
    ∧ (∀ (i2 j2 : ℤ) (b2 : Bool),
        (find_region_for_region_indices cfg s i j b).2.corner_to_stat_region (i2, j2)
          = none →
        find_region_for_region_indices cfg
            (find_region_for_region_indices cfg s i j b).2 i2 j2 b2
          = (sentinelRegion, (find_region_for_region_indices cfg s i j b).2)) := by
  rcases hempty with hemp | hemp
  · rw [find_sentinel_first cfg s i j b hc hmiss hemp]
    refine ⟨rfl, rfl, rfl, hc, rfl, rfl, rfl, rfl, rfl, rfl, rfl, ?_⟩
    intro i2 j2 b2 hmiss2
    exact find_sentinel_memoized cfg _ i2 j2 b2 hc hmiss2 rfl
  · rw [find_sentinel_memoized cfg s i j b hc hmiss hemp]
    refine ⟨rfl, rfl, hemp, hc, rfl, rfl, rfl, rfl, rfl, rfl, rfl, ?_⟩
    intro i2 j2 b2 hmiss2
    exact find_sentinel_memoized cfg s i2 j2 b2 hc hmiss2 hemp

/-- Witness for C4: a built grid with nothing stored returns the
sentinel for the miss at (5, 7), stores nothing, and returns the same
sentinel at the next miss. -/
theorem find_after_generate_all_sentinel_witness :
    sC4.all_regions_computed = true
    ∧ sC4.corner_to_stat_region (5, 7) = none
    ∧ (find_region_for_region_indices cfgC2 sC4 5 7 false).1 = sentinelRegion
    ∧ (find_region_for_region_indices cfgC2 sC4 5 7 false).2.corner_to_stat_region
        = sC4.corner_to_stat_region
    ∧ sentinelRegion.worddist.finished = true
    ∧ sentinelRegion.worddist.is_empty = true := by
  have h := find_after_generate_all_returns_shared_sentinel cfgC2 sC4 5 7 false
    rfl rfl (Or.inl rfl)
  exact ⟨rfl, rfl, h.1, h.2.1, h.2.2.2.2.2.2.2.2.2.1, h.2.2.2.2.2.2.2.2.2.2.1⟩

/-- One add_articles step appends the article exactly when it has a
distribution and is in the training split. -/
theorem add_one_article_articles (d : RegionWordDist) (a : StatArticle) :
    (d.add_one_article a).articles =
      d.articles ++ (if a.dist.isSome && a.split == "training" then [a] else []) := by
  cases h : a.dist with
  | none => simp [RegionWordDist.add_one_article, h]
  | some dist =>
    by_cases hs : a.split = "training" <;>
      simp [RegionWordDist.add_one_article, h, hs]

/-- One add_articles step counts the article exactly when it is kept. -/
theorem add_one_article_num_arts (d : RegionWordDist) (a : StatArticle) :
    (d.add_one_article a).num_arts =
      d.num_arts + (if a.dist.isSome && a.split == "training" then 1 else 0) := by
  cases h : a.dist with
  | none => simp [RegionWordDist.add_one_article, h]
  | some dist =>
    by_cases hs : a.split = "training" <;>
      simp [RegionWordDist.add_one_article, h, hs]

/-- One add_articles step does not touch the finished flag. -/
theorem add_one_article_finished (d : RegionWordDist) (a : StatArticle) :
    (d.add_one_article a).finished = d.finished := by
  cases h : a.dist with
  | none => simp [RegionWordDist.add_one_article, h]
  | some dist =>
    by_cases hs : a.split = "training" <;>
      simp [RegionWordDist.add_one_article, h, hs]

/-- add_articles appends exactly the training articles that have a
distribution, in order. -/
theorem add_articles_articles (d : RegionWordDist) (l : List StatArticle) :
    (d.add_articles l).articles =
      d.articles ++ l.filter (fun a => a.dist.isSome && a.split == "training") := by
  induction l generalizing d with
  | nil => simp [RegionWordDist.add_articles]
  | cons a rest ih =>
    simp only [RegionWordDist.add_articles, List.foldl_cons] at ih ⊢
    rw [ih, add_one_article_articles, List.filter_cons]
    by_cases hc : (a.dist.isSome && a.split == "training") = true <;>
      simp [hc]

/-- add_articles counts exactly the articles it keeps. -/
theorem add_articles_num_arts (d : RegionWordDist) (l : List StatArticle) :
    (d.add_articles l).num_arts =
      d.num_arts + (l.filter (fun a => a.dist.isSome && a.split == "training")).length := by
  induction l generalizing d with
  | nil => simp [RegionWordDist.add_articles]
  | cons a rest ih =>
    simp only [RegionWordDist.add_articles, List.foldl_cons] at ih ⊢
    rw [ih, add_one_article_num_arts, List.filter_cons]
    by_cases hc : (a.dist.isSome && a.split == "training") = true
    · simp [hc]
      omega
    · simp [hc]

/-- add_articles does not touch the finished flag. -/
theorem add_articles_finished (d : RegionWordDist) (l : List StatArticle) :
    (d.add_articles l).finished = d.finished := by
  induction l generalizing d with
  | nil => simp [RegionWordDist.add_articles]
  | cons a rest ih =>
    simp only [RegionWordDist.add_articles, List.foldl_cons] at ih ⊢
    rw [ih, add_one_article_finished]

/-- A fold whose step appends a per-element batch of articles
accumulates the concatenation of the batches. -/
theorem fold_step_articles (g : RegionWordDist → ℤ → RegionWordDist)
    (row : ℤ → List StatArticle)
    (hg : ∀ wd i, (g wd i).articles = wd.articles ++ row i) :
    ∀ (is : List ℤ) (d : RegionWordDist),
      (is.foldl g d).articles = d.articles ++ (is.map row).flatten := by
  intro is
  induction is with
  | nil => intro d; simp
  | cons i rest ih => intro d; simp [ih, hg, List.append_assoc]

/-- A fold whose step adds a per-element count accumulates the sum. -/
theorem fold_step_num_arts (g : RegionWordDist → ℤ → RegionWordDist)
    (row : ℤ → List StatArticle)
    (hg : ∀ wd i, (g wd i).num_arts = wd.num_arts + (row i).length) :
    ∀ (is : List ℤ) (d : RegionWordDist),
      (is.foldl g d).num_arts = d.num_arts + ((is.map row).flatten).length := by
  intro is
  induction is with
  | nil => intro d; simp
  | cons i rest ih => intro d; simp [ih, hg]; omega

/-- A fold whose step keeps the finished flag keeps the finished flag. -/
theorem fold_step_finished (g : RegionWordDist → ℤ → RegionWordDist)
    (hg : ∀ wd i, (g wd i).finished = wd.finished) :
    ∀ (is : List ℤ) (d : RegionWordDist), (is.foldl g d).finished = d.finished := by
  intro is
  induction is with
  | nil => intro d; simp
  | cons i rest ih => intro d; simp [ih, hg]

/-- Claim C3 as amended: generate_dist accumulates, in row-major order,
exactly the training-split articles with a distribution found in the
tiles at rows reglat..reglat+W-1 (unclamped: rows beyond the poles have
no tiles) and columns reglong..reglong+W-1 with every column index
beyond maximum_longind replaced by minimum_longind (the minimum column
is read repeatedly when the block overflows by more than one column),
and finishes the resulting distribution. -/
theorem generate_dist_accumulates_code_block (cfg : GridConfig)
    (tiling : ℤ × ℤ → List StatArticle) (reglat reglong : ℤ) :
    (generate_dist cfg tiling reglat reglong).articles
        = code_block_articles cfg tiling reglat reglong
    ∧ (generate_dist cfg tiling reglat reglong).num_arts
        = (code_block_articles cfg tiling reglat reglong).length
    ∧ (generate_dist cfg tiling reglat reglong).finished = true := by
  have harts := fold_step_articles
    (fun wd i => (intRange reglong cfg.width_of_stat_region).foldl
      (fun wd j => wd.add_articles
        (tiling (i, if maximum_longind cfg < j then minimum_longind cfg else j))) wd)
    (fun i => ((intRange reglong cfg.width_of_stat_region).map fun j =>
      (tiling (i, if maximum_longind cfg < j then minimum_longind cfg else j)).filter
        (fun a => a.dist.isSome && a.split == "training")).flatten)
    (fun wd i => fold_step_articles
      (fun wd j => wd.add_articles
        (tiling (i, if maximum_longind cfg < j then minimum_longind cfg else j)))
      (fun j => (tiling (i, if maximum_longind cfg < j then minimum_longind cfg else j)).filter
        (fun a => a.dist.isSome && a.split == "training"))
      (fun wd2 j => add_articles_articles wd2 _) _ wd)
    (intRange reglat cfg.width_of_stat_region) RegionWordDist.init
  have hnum := fold_step_num_arts
    (fun wd i => (intRange reglong cfg.width_of_stat_region).foldl
      (fun wd j => wd.add_articles
        (tiling (i, if maximum_longind cfg < j then minimum_longind cfg else j))) wd)
    (fun i => ((intRange reglong cfg.width_of_stat_region).map fun j =>
      (tiling (i, if maximum_longind cfg < j then minimum_longind cfg else j)).filter
        (fun a => a.dist.isSome && a.split == "training")).flatten)
    (fun wd i => by
      rw [fold_step_num_arts
        (fun wd j => wd.add_articles
          (tiling (i, if maximum_longind cfg < j then minimum_longind cfg else j)))
        (fun j => (tiling (i, if maximum_longind cfg < j then minimum_longind cfg else j)).filter
          (fun a => a.dist.isSome && a.split == "training"))
        (fun wd2 j => add_articles_num_arts wd2 _) _ wd])
    (intRange reglat cfg.width_of_stat_region) RegionWordDist.init
  refine ⟨?_, ?_, rfl⟩
  · simpa [generate_dist, code_block_articles, RegionWordDist.finish_distribution,
      RegionWordDist.init] using harts
  · simp only [generate_dist, code_block_articles, RegionWordDist.finish_distribution,
      RegionWordDist.init] at hnum ⊢
    rw [hnum]
    simp [List.length_flatten, List.map_map]

/-- Counterexample to C3 as stated: with 1-degree tiles and W = 3, the
statistical region at columns 179, 180, 181 reads the wrapped column
-180 twice (both 180 and 181 are replaced by the minimum index), so the
single article on the tile (0, -180) is accumulated twice; the claimed
W×W block with modular wrapping (and clamping) holds it once. -/
theorem generate_dist_block_counterexample :
    (generate_dist cfgC3 tilingC3 0 179).articles = [artC3, artC3]
    ∧ claimed_block_articles cfgC3 tilingC3 0 179 = [artC3]
    ∧ (generate_dist cfgC3 tilingC3 0 179).articles
        ≠ claimed_block_articles cfgC3 tilingC3 0 179 := by
  have h1 : maximum_longind cfgC3 = 179 := by
    norm_num [maximum_longind, maximum_inds, coord_to_tiling_region_indices,
      maximum_longitude, cfgC3]
  have h2 : minimum_longind cfgC3 = -180 := by
    norm_num [minimum_longind, minimum_inds, coord_to_tiling_region_indices,
      minimum_longitude, cfgC3]
  have h3 : maximum_latind cfgC3 = 89 := by
    norm_num [maximum_latind, maximum_inds, coord_to_tiling_region_indices,
      maximum_latitude, cfgC3]
  have h4 : minimum_latind cfgC3 = -90 := by
    norm_num [minimum_latind, minimum_inds, coord_to_tiling_region_indices,
      minimum_latitude, cfgC3]
  have ha : (generate_dist cfgC3 tilingC3 0 179).articles = [artC3, artC3] := by
    simp only [generate_dist, h1, h2]
    decide
  have hb : claimed_block_articles cfgC3 tilingC3 0 179 = [artC3] := by
    simp only [claimed_block_articles, h1, h2, h3, h4]
    decide
  refine ⟨ha, hb, ?_⟩
  rw [ha, hb]
  simp

/-- Inserting into the preference sort adds exactly one element. -/
theorem mem_insertPreferred (prefer : StatArticle → StatArticle → Bool)
    (a x : StatArticle) (l : List StatArticle) :
    x ∈ insertPreferred prefer a l ↔ x = a ∨ x ∈ l := by
  induction l with
  | nil => simp [insertPreferred]
  | cons b rest ih =>
    simp only [insertPreferred]
    split
    · simp
    · simp [ih]
      tauto

/-- The preference sort is a permutation in the membership sense. -/
theorem mem_sortByPreferred (prefer : StatArticle → StatArticle → Bool)
    (x : StatArticle) (l : List StatArticle) :
    x ∈ sortByPreferred prefer l ↔ x ∈ l := by
  induction l with
  | nil => simp [sortByPreferred]
  | cons a rest ih => simp [sortByPreferred, mem_insertPreferred, ih]

/-- A hit in the division stage passes check_match. -/
theorem findDivMatch_some_check (tbl : ArticleTableState) (loname : String)
    (check : StatArticle → Bool) (ds : List String) (a : StatArticle)
    (h : findDivMatch tbl loname check ds = some a) : check a = true := by
  induction ds with
  | nil => simp [findDivMatch] at h
  | cons d rest ih =>
    simp only [findDivMatch] at h
    cases h1 : (tbl.lower_name_div_to_articles (loname, strLower d)).find? check with
    | some art =>
      rw [h1] at h
      cases h
      exact List.find?_some h1
    | none =>
      rw [h1] at h
      exact ih h

/-- Whatever find_one_wikipedia_match returns passes check_match. -/
theorem find_one_some_check (tbl : ArticleTableState) (loc : Locality)
    (name : String) (check : StatArticle → Bool)
    (prefer : StatArticle → StatArticle → Bool) (a : StatArticle)
    (h : find_one_wikipedia_match tbl loc name check prefer = some a) :
    check a = true := by
  simp only [find_one_wikipedia_match] at h
  cases h1 : (tbl.lower_name_to_articles (strLower name)).find? check with
  | some art =>
    rw [h1] at h
    cases h
    exact List.find?_some h1
  | none =>
    rw [h1] at h
    cases h2 : findDivMatch tbl (strLower name) check loc.divpath with
    | some art =>
      rw [h2] at h
      cases h
      exact findDivMatch_some_check tbl _ check loc.divpath a h2
    | none =>
      rw [h2] at h
      by_cases he : (tbl.short_lower_name_to_articles (strLower name)).isEmpty
      · rw [if_pos he] at h
        cases h
      · rw [if_neg he] at h
        by_cases hl1 :
            (List.filter check (tbl.short_lower_name_to_articles (strLower name))).length = 1
        · rw [if_pos hl1] at h
          exact List.of_mem_filter (List.mem_of_mem_head? h)
        · rw [if_neg hl1] at h
          by_cases hl2 :
              1 < (List.filter check (tbl.short_lower_name_to_articles (strLower name))).length
          · rw [if_pos hl2] at h
            have hm := List.mem_of_mem_head? h
            rw [mem_sortByPreferred] at hm
            exact List.of_mem_filter hm
          · rw [if_neg hl2] at h
            cases h

/-- Whatever the alternate-name loop returns passes check_match. -/
theorem findAltNameMatch_some_check (tbl : ArticleTableState) (loc : Locality)
    (check : StatArticle → Bool) (prefer : StatArticle → StatArticle → Bool)
    (ns : List String) (a : StatArticle)
    (h : findAltNameMatch tbl loc check prefer ns = some a) : check a = true := by
  induction ns with
  | nil => simp [findAltNameMatch] at h
  | cons n rest ih =>
    simp only [findAltNameMatch] at h
    cases h1 : find_one_wikipedia_match tbl loc n check prefer with
    | some m =>
      rw [h1] at h
      cases h
      exact find_one_some_check tbl loc n check prefer a h1
    | none =>
      rw [h1] at h
      exact ih h

/-- Whatever find_wikipedia_match returns passes check_match. -/
theorem find_wikipedia_match_some_check (tbl : ArticleTableState) (loc : Locality)
    (check : StatArticle → Bool) (prefer : StatArticle → StatArticle → Bool)
    (a : StatArticle) (h : find_wikipedia_match tbl loc check prefer = some a) :
    check a = true := by
  simp only [find_wikipedia_match] at h
  cases h1 : find_one_wikipedia_match tbl loc loc.name check prefer with
  | some m =>
    rw [h1] at h
    cases h
    exact find_one_some_check tbl loc loc.name check prefer a h1
  | none =>
    rw [h1] at h
    exact findAltNameMatch_some_check tbl loc check prefer loc.altnames a h

/-- A locality match at radius maxdist is within maxdist. -/
theorem find_match_for_locality_within (d : Coord → Coord → ℚ)
    (tbl : ArticleTableState) (loc : Locality) (maxdist : ℚ) (a : StatArticle)
    (h : find_match_for_locality d tbl loc maxdist = some a) :
    distOpt d loc.coord a.coord ≤ maxdist := by
  have hc := find_wikipedia_match_some_check tbl loc _ _ a h
  exact of_decide_eq_true hc

/-- An article under the locality's lowercased canonical name that
passes check_match guarantees find_one_wikipedia_match returns a hit
(the first stage scans exactly that list). -/
theorem find_one_first_stage_hit (tbl : ArticleTableState) (loc : Locality)
    (name : String) (check : StatArticle → Bool)
    (prefer : StatArticle → StatArticle → Bool) (art : StatArticle)
    (hmem : art ∈ tbl.lower_name_to_articles (strLower name))
    (hcheck : check art = true) :
    ∃ a, find_one_wikipedia_match tbl loc name check prefer = some a := by
  cases h1 : (tbl.lower_name_to_articles (strLower name)).find? check with
  | some a =>
    refine ⟨a, ?_⟩
    simp only [find_one_wikipedia_match, h1]
  | none =>
    exact absurd hcheck (List.find?_eq_none.mp h1 art hmem)

/-- The ring-expansion loop tries exactly the doubling radii list. -/
theorem match_loop_eq_first_hit (d : Coord → Coord → ℚ) (tbl : ArticleTableState)
    (loc : Locality) (limit : ℚ) :
    ∀ (fuel : ℕ) (maxdist : ℚ),
      match_loop d tbl loc limit maxdist fuel =
        first_hit d tbl loc (ring_radii limit maxdist fuel) := by
  intro fuel
  induction fuel with
  | zero => intro maxdist; rfl
  | succ n ih =>
    intro maxdist
    simp only [match_loop, ring_radii]
    by_cases hle : maxdist ≤ limit
    · simp only [if_pos hle, first_hit]
      cases hf : find_match_for_locality d tbl loc maxdist with
      | some m => rfl
      | none => exact ih (maxdist * 2)
    · simp only [if_neg hle]
      rfl

/-- Claim C6: the ring search tries the radii 5, 10, 20, 40, 80 in
order, stopping at the first radius that yields a match; any match found
at radius r is within r miles; and whenever a candidate under the
locality's lowercased canonical name is within 5 miles, the search
returns a match at the first ring, which is itself within 5 miles — a
farther candidate is never chosen over it. -/
theorem gazetteer_ring_search_schedule (d : Coord → Coord → ℚ)
    (tbl : ArticleTableState) (loc : Locality) :
    gazetteer_ring_search d tbl loc 80 6 = first_hit d tbl loc [5, 10, 20, 40, 80]
    ∧ (∀ (r : ℚ) (a : StatArticle), find_match_for_locality d tbl loc r = some a →
        distOpt d loc.coord a.coord ≤ r)
    ∧ (∀ art, art ∈ tbl.lower_name_to_articles (strLower loc.name) →
        distOpt d loc.coord art.coord ≤ 5 →
        ∃ a, gazetteer_ring_search d tbl loc 80 6 = some a
          ∧ distOpt d loc.coord a.coord ≤ 5) := by
  have hradii : ring_radii 80 5 6 = [5, 10, 20, 40, 80] := by norm_num [ring_radii]
  have hsched : gazetteer_ring_search d tbl loc 80 6
      = first_hit d tbl loc [5, 10, 20, 40, 80] := by
    rw [gazetteer_ring_search, match_loop_eq_first_hit, hradii]
  refine ⟨hsched, fun r a h => find_match_for_locality_within d tbl loc r a h, ?_⟩
  intro art hmem hdist
  have hcheck : (fun a => decide (distOpt d loc.coord a.coord ≤ (5 : ℚ))) art = true :=
    decide_eq_true hdist
  obtain ⟨a, ha⟩ := find_one_first_stage_hit tbl loc loc.name
    (fun a => decide (distOpt d loc.coord a.coord ≤ (5 : ℚ)))
    (fun art1 art2 => decide (distOpt d loc.coord art1.coord < distOpt d loc.coord art2.coord))
    art hmem hcheck
  have hfind5 : find_match_for_locality d tbl loc 5 = some a := by
    simp only [find_match_for_locality, find_wikipedia_match, ha]
  refine ⟨a, ?_, find_match_for_locality_within d tbl loc 5 a hfind5⟩
  rw [hsched]
  simp only [first_hit, hfind5]

/-- Witness for C6 at a concrete table: the single candidate stored
under "springfield" is at distance 0 ≤ 5 and is found at the first
ring. -/
theorem gazetteer_ring_search_schedule_witness :
    artC6 ∈ tblC6.lower_name_to_articles (strLower locC6.name)
    ∧ distOpt dC6 locC6.coord artC6.coord ≤ 5
    ∧ ∃ a, gazetteer_ring_search dC6 tblC6 locC6 80 6 = some a
        ∧ distOpt dC6 locC6.coord a.coord ≤ 5 := by
  refine ⟨by decide, by decide, ?_⟩
  exact (gazetteer_ring_search_schedule dC6 tblC6 locC6).2.2 artC6 (by decide) (by decide)

/-- Claim C8: recording a redirect name maps the name to the target
article's record in name_to_article and in the lowercased, short-form,
(short, division) and toponym indexes, while articles_by_split — the
per-split enumerations — is left completely unchanged. -/
theorem record_split_redirect (tbl : ArticleTableState) (art : StatArticle) :
    record_split tbl art true = tbl := rfl

theorem div_map_by_split (t : ArticleTableState) (sd : String × Option String)
    (a : StatArticle) : (record_div_map t sd a).articles_by_split = t.articles_by_split := by
  rcases sd with ⟨s1, s2⟩
  cases s2
  · rfl
  · dsimp only [record_div_map]
    split_ifs <;> rfl

theorem toponym_lo_by_split (t : ArticleTableState) (l : String) (a : StatArticle) :
    (record_toponym_lo t l a).articles_by_split = t.articles_by_split := by
  unfold record_toponym_lo
  split_ifs <;> rfl

theorem toponym_short_by_split (t : ArticleTableState) (l s : String) (a : StatArticle) :
    (record_toponym_short t l s a).articles_by_split = t.articles_by_split := by
  unfold record_toponym_short
  split_ifs <;> rfl

theorem div_map_name_map (t : ArticleTableState) (sd : String × Option String)
    (a : StatArticle) : (record_div_map t sd a).name_to_article = t.name_to_article := by
  rcases sd with ⟨s1, s2⟩
  cases s2
  · rfl
  · dsimp only [record_div_map]
    split_ifs <;> rfl

theorem toponym_lo_name_map (t : ArticleTableState) (l : String) (a : StatArticle) :
    (record_toponym_lo t l a).name_to_article = t.name_to_article := by
  unfold record_toponym_lo
  split_ifs <;> rfl

theorem toponym_short_name_map (t : ArticleTableState) (l s : String) (a : StatArticle) :
    (record_toponym_short t l s a).name_to_article = t.name_to_article := by
  unfold record_toponym_short
  split_ifs <;> rfl

theorem div_map_lower_names (t : ArticleTableState) (sd : String × Option String)
    (a : StatArticle) :
    (record_div_map t sd a).lower_name_to_articles = t.lower_name_to_articles := by
  rcases sd with ⟨s1, s2⟩
  cases s2
  · rfl
  · dsimp only [record_div_map]
    split_ifs <;> rfl

theorem toponym_lo_lower_names (t : ArticleTableState) (l : String) (a : StatArticle) :
    (record_toponym_lo t l a).lower_name_to_articles = t.lower_name_to_articles := by
  unfold record_toponym_lo
  split_ifs <;> rfl

theorem toponym_short_lower_names (t : ArticleTableState) (l s : String) (a : StatArticle) :
    (record_toponym_short t l s a).lower_name_to_articles = t.lower_name_to_articles := by
  unfold record_toponym_short
  split_ifs <;> rfl

theorem toponym_lo_short_names (t : ArticleTableState) (l : String) (a : StatArticle) :
    (record_toponym_lo t l a).short_lower_name_to_articles
      = t.short_lower_name_to_articles := by
  unfold record_toponym_lo
  split_ifs <;> rfl

theorem toponym_short_short_names (t : ArticleTableState) (l s : String) (a : StatArticle) :
    (record_toponym_short t l s a).short_lower_name_to_articles
      = t.short_lower_name_to_articles := by
  unfold record_toponym_short
  split_ifs <;> rfl

theorem toponym_lo_div_names (t : ArticleTableState) (l : String) (a : StatArticle) :
    (record_toponym_lo t l a).lower_name_div_to_articles
      = t.lower_name_div_to_articles := by
  unfold record_toponym_lo
  split_ifs <;> rfl

theorem toponym_short_div_names (t : ArticleTableState) (l s : String) (a : StatArticle) :
    (record_toponym_short t l s a).lower_name_div_to_articles
      = t.lower_name_div_to_articles := by
  unfold record_toponym_short
  split_ifs <;> rfl

/-- The division stage appends the article under (short, div) whenever
the short form carries a non-empty division (the source's `if div:`
truthiness guard). -/
theorem div_map_mem (t : ArticleTableState) (sd : String × Option String)
    (a : StatArticle) (dv : String) (h : sd.2 = some dv) (hne : dv ≠ "") :
    a ∈ (record_div_map t sd a).lower_name_div_to_articles (sd.1, dv) := by
  rcases sd with ⟨s1, s2⟩
  cases s2 with
  | none => cases h
  | some d =>
    cases h
    dsimp only [record_div_map]
    rw [if_pos hne]
    simp

/-- The division stage skips an empty division string entirely, just as
it skips an absent one: `if div:` is false for both. -/
theorem div_map_skips_empty (t : ArticleTableState) (sd : String × Option String)
    (a : StatArticle) (h : sd.2 = some "") : record_div_map t sd a = t := by
  rcases sd with ⟨s1, s2⟩
  cases s2 with
  | none => cases h
  | some d =>
    cases h
    dsimp only [record_div_map]
    rw [if_neg (by simp)]

/-- After the lowercased-toponym stage the article is present under the
lowercased name. -/
theorem toponym_lo_mem (t : ArticleTableState) (l : String) (a : StatArticle) :
    a ∈ (record_toponym_lo t l a).lower_toponym_to_article l := by
  unfold record_toponym_lo
  by_cases hc : a ∈ t.lower_toponym_to_article l
  · rw [if_neg (not_not_intro hc)]
    exact hc
  · rw [if_pos hc]
    simp

/-- The short-toponym stage never removes the article from the
lowercased-name entry (it appends only under a short form that differs
from the lowercased name). -/
theorem toponym_short_keeps_lo (t : ArticleTableState) (l s : String)
    (a a2 : StatArticle) (h : a ∈ t.lower_toponym_to_article l) :
    a ∈ (record_toponym_short t l s a2).lower_toponym_to_article l := by
  unfold record_toponym_short
  split_ifs with hc
  · show a ∈ (if l = s then t.lower_toponym_to_article l ++ [a2]
      else t.lower_toponym_to_article l)
    rw [if_neg (fun he => hc.1 he.symm)]
    exact h
  · exact h

/-- Claim C8: recording a redirect name maps the name to the target
article's record in name_to_article and in the lowercased, short-form,
(short, division) and toponym indexes — the (short, division) entry is
written exactly when the short form carries a non-empty division, the
source's `if div:` truthiness guard skipping None and "" alike — while
articles_by_split — the per-split enumerations — is left completely
unchanged. -/
theorem record_redirect_updates_names_not_splits
    (tbl : ArticleTableState) (name : String) (art : StatArticle)
    (h : capfirst name = name) :
    ∃ tbl2, record_article tbl name art true = some tbl2
      ∧ tbl2.articles_by_split = tbl.articles_by_split
      ∧ tbl2.name_to_article name = some art
      ∧ art ∈ tbl2.lower_name_to_articles (strLower name)
      ∧ art ∈ tbl2.short_lower_name_to_articles (compute_short_form (strLower name)).1
      ∧ (∀ dv, (compute_short_form (strLower name)).2 = some dv → dv ≠ "" →
          art ∈ tbl2.lower_name_div_to_articles ((compute_short_form (strLower name)).1, dv))
      ∧ ((compute_short_form (strLower name)).2 = some "" →
          tbl2.lower_name_div_to_articles = tbl.lower_name_div_to_articles)
      ∧ art ∈ tbl2.lower_toponym_to_article (strLower name) := by
  have hcond : ¬ (name ≠ capfirst name) := by simp [h]
  simp only [record_article, if_neg hcond]
  refine ⟨_, rfl, ?_, ?_, ?_, ?_, ?_, ?_, ?_⟩
  · rw [record_split_redirect, toponym_short_by_split, toponym_lo_by_split]
    rw [show ∀ t : ArticleTableState, (record_short_map t (compute_short_form (strLower name)).1 art).articles_by_split = t.articles_by_split from fun t => rfl]
    rw [div_map_by_split]
    rfl
  · rw [record_split_redirect, toponym_short_name_map, toponym_lo_name_map]
    rw [show ∀ t : ArticleTableState, (record_short_map t (compute_short_form (strLower name)).1 art).name_to_article = t.name_to_article from fun t => rfl]
    rw [div_map_name_map]
    simp [record_name_maps]
  · rw [record_split_redirect, toponym_short_lower_names, toponym_lo_lower_names]
    rw [show ∀ t : ArticleTableState, (record_short_map t (compute_short_form (strLower name)).1 art).lower_name_to_articles = t.lower_name_to_articles from fun t => rfl]
    rw [div_map_lower_names]
    simp [record_name_maps]
  · rw [record_split_redirect, toponym_short_short_names, toponym_lo_short_names]
    simp [record_short_map]
  · intro dv hdv hne
    rw [record_split_redirect, toponym_short_div_names, toponym_lo_div_names]
    rw [show ∀ t : ArticleTableState, (record_short_map t (compute_short_form (strLower name)).1 art).lower_name_div_to_articles = t.lower_name_div_to_articles from fun t => rfl]
    exact div_map_mem _ _ art dv hdv hne
  · intro hdv
    rw [record_split_redirect, toponym_short_div_names, toponym_lo_div_names]
    rw [show ∀ t : ArticleTableState, (record_short_map t (compute_short_form (strLower name)).1 art).lower_name_div_to_articles = t.lower_name_div_to_articles from fun t => rfl]
    rw [div_map_skips_empty _ _ art hdv]
    rfl
  · rw [record_split_redirect]
    exact toponym_short_keeps_lo _ _ _ art art (toponym_lo_mem _ _ art)

/-- Witness for C8: recording the redirect "Springfield, ohio" into the
empty table updates the name maps — including the ("springfield",
"ohio") compound entry, the division being non-empty — and leaves the
split enumerations empty. -/
theorem record_redirect_witness :
    capfirst "Springfield, ohio" = "Springfield, ohio"
    ∧ ∃ tbl2, record_article tblC8 "Springfield, ohio" artC8 true = some tbl2
      ∧ tbl2.articles_by_split = tblC8.articles_by_split
      ∧ tbl2.name_to_article "Springfield, ohio" = some artC8
      ∧ artC8 ∈ tbl2.lower_name_to_articles (strLower "Springfield, ohio")
      ∧ artC8 ∈ tbl2.short_lower_name_to_articles
          (compute_short_form (strLower "Springfield, ohio")).1
      ∧ (∀ dv, (compute_short_form (strLower "Springfield, ohio")).2 = some dv → dv ≠ "" →
          artC8 ∈ tbl2.lower_name_div_to_articles
            ((compute_short_form (strLower "Springfield, ohio")).1, dv))
      ∧ ((compute_short_form (strLower "Springfield, ohio")).2 = some "" →
          tbl2.lower_name_div_to_articles = tblC8.lower_name_div_to_articles)
      ∧ artC8 ∈ tbl2.lower_toponym_to_article (strLower "Springfield, ohio") :=
  ⟨by decide,
   record_redirect_updates_names_not_splits tblC8 "Springfield, ohio" artC8 (by decide)⟩

/-- Taking a proper prefix commutes with dropping the last element. -/
theorem take_dropLast_eq {α : Type} (l : List α) (k : ℕ) (hk : k ≤ l.length - 1) :
    l.dropLast.take k = l.take k := by
  rw [List.dropLast_eq_take, List.take_take]
  congr 1
  omega

/-- note_point_finish on a path whose last element is empty changes
nothing and passes the higher division through. -/
theorem note_point_finish_skip (s1 : GazDivState) (hd : Option (List String))
    (loc : ℕ) (path : List String) (h : path.getLastD "" = "") :
    note_point_finish s1 hd loc path = (hd, s1) := by
  unfold note_point_finish
  rw [if_pos h]

/-- note_point_finish on a path whose last element is non-empty stores,
at exactly that path, a division holding the location, and touches no
other key of path_to_division. -/
theorem note_point_finish_adds (s1 : GazDivState) (hd : Option (List String))
    (loc : ℕ) (path : List String) (h : path.getLastD "" ≠ "") :
    (∃ dd, (note_point_finish s1 hd loc path).2.path_to_division path = some dd
      ∧ loc ∈ dd.locs)
    ∧ (∀ q, q ≠ path →
        (note_point_finish s1 hd loc path).2.path_to_division q
          = s1.path_to_division q)
    ∧ (note_point_finish s1 hd loc path).1 = some path := by
  unfold note_point_finish
  rw [if_neg h]
  cases hdv : s1.path_to_division path with
  | some d =>
    refine ⟨⟨{ d with locs := d.locs ++ [loc] }, ?_, by simp⟩, ?_, rfl⟩
    · simp [hdv]
    · intro q hq
      simp [hdv, hq]
  | none =>
    refine ⟨⟨{ name := path.getLastD "", path := path, level := path.length,
               locs := [] ++ [loc], parent := hd }, ?_, by simp⟩, ?_, rfl⟩
    · simp [hdv]
    · intro q hq
      simp [hdv, hq]

/-- The length-indexed induction behind claim C10. -/
theorem note_point_aux : ∀ (n : ℕ) (path : List String) (s : GazDivState) (loc : ℕ),
    path.length = n → path ≠ [] →
    (∀ k, 1 ≤ k → k ≤ path.length →
      ((path.take k).getLastD "" = "" →
        (note_point_seen_in_division s loc path).2.path_to_division (path.take k)
          = s.path_to_division (path.take k))
      ∧ ((path.take k).getLastD "" ≠ "" →
        ∃ dd, (note_point_seen_in_division s loc path).2.path_to_division (path.take k)
            = some dd ∧ loc ∈ dd.locs))
    ∧ (∀ q : List String, (∀ k, 1 ≤ k → k ≤ path.length → q ≠ path.take k) →
        (note_point_seen_in_division s loc path).2.path_to_division q
          = s.path_to_division q) := by
  intro n
  induction n using Nat.strong_induction_on with
  | _ n ih =>
    intro path s loc hlen hne
    match path, hne with
    | [p0], _ =>
      have hstep : note_point_seen_in_division s loc [p0]
          = note_point_finish s none loc [p0] := by
        conv_lhs => rw [note_point_seen_in_division]
        rw [if_neg (by simp)]
      by_cases hlast : ([p0].getLastD "") = ""
      · rw [hstep, note_point_finish_skip s none loc [p0] hlast]
        refine ⟨?_, fun q hq => rfl⟩
        intro k hk1 hk2
        simp only [List.length_cons, List.length_nil] at hk2
        have hk : k = 1 := by omega
        subst hk
        exact ⟨fun _ => rfl, fun hcon => absurd hlast hcon⟩
      · rw [hstep]
        have hadds := note_point_finish_adds s none loc [p0] hlast
        refine ⟨?_, fun q hq => hadds.2.1 q (hq 1 (by omega) (by simp))⟩
        intro k hk1 hk2
        simp only [List.length_cons, List.length_nil] at hk2
        have hk : k = 1 := by omega
        subst hk
        exact ⟨fun hcon => absurd hcon hlast, fun _ => hadds.1⟩
    | p0 :: p1 :: prest2, _ =>
      have hgt : 1 < (p0 :: p1 :: prest2).length := by
        simp only [List.length_cons]
        omega
      have hstep : note_point_seen_in_division s loc (p0 :: p1 :: prest2)
          = note_point_finish
              (note_point_seen_in_division s loc ((p0 :: p1 :: prest2).dropLast)).2
              (note_point_seen_in_division s loc ((p0 :: p1 :: prest2).dropLast)).1
              loc (p0 :: p1 :: prest2) := by
        conv_lhs => rw [note_point_seen_in_division]
        rw [if_pos hgt]
      have hlen2 : prest2.length + 1 + 1 = n := by
        simpa only [List.length_cons] using hlen
      have hlen' : ((p0 :: p1 :: prest2).dropLast).length = n - 1 := by
        simp only [List.length_dropLast, List.length_cons]
        omega
      have hne' : (p0 :: p1 :: prest2).dropLast ≠ [] := by
        intro hcon
        have hcl := congrArg List.length hcon
        rw [hlen'] at hcl
        simp only [List.length_nil] at hcl
        omega
      obtain ⟨IH1, IH2⟩ := ih (n - 1) (by omega) ((p0 :: p1 :: prest2).dropLast)
        s loc hlen' hne'
      have hne_take : ∀ k', 1 ≤ k' → k' ≤ ((p0 :: p1 :: prest2).dropLast).length →
          (p0 :: p1 :: prest2) ≠ ((p0 :: p1 :: prest2).dropLast).take k' := by
        intro k' h1 h2 heq
        have hl : (((p0 :: p1 :: prest2).dropLast).take k').length = k' := by
          rw [List.length_take]
          omega
        rw [← heq] at hl
        simp only [List.length_cons] at hl
        rw [hlen'] at h2
        omega
      have htake_full : (p0 :: p1 :: prest2).take n = p0 :: p1 :: prest2 := by
        rw [← hlen]
        exact List.take_length _
      by_cases hlast : ((p0 :: p1 :: prest2).getLastD "") = ""
      · rw [hstep, note_point_finish_skip _ _ loc (p0 :: p1 :: prest2) hlast]
        constructor
        · intro k hk1 hk2
          by_cases hk : k ≤ n - 1
          · rw [← take_dropLast_eq (p0 :: p1 :: prest2) k
              (by simp only [List.length_cons]; omega)]
            exact IH1 k hk1 (by rw [hlen']; omega)
          · have hkn : k = n := by rw [hlen] at hk2; omega
            subst hkn
            rw [htake_full]
            refine ⟨fun _ => IH2 _ hne_take, fun hcon => absurd hlast hcon⟩
        · intro q hq
          refine IH2 q ?_
          intro k' h1 h2
          rw [take_dropLast_eq (p0 :: p1 :: prest2) k'
            (by rw [hlen'] at h2; simp only [List.length_cons]; omega)]
          exact hq k' h1 (by rw [hlen'] at h2; rw [hlen]; omega)
      · rw [hstep]
        have hadds := note_point_finish_adds
          (note_point_seen_in_division s loc ((p0 :: p1 :: prest2).dropLast)).2
          (note_point_seen_in_division s loc ((p0 :: p1 :: prest2).dropLast)).1
          loc (p0 :: p1 :: prest2) hlast
        constructor
        · intro k hk1 hk2
          by_cases hk : k ≤ n - 1
          · have htk : (p0 :: p1 :: prest2).take k
                = ((p0 :: p1 :: prest2).dropLast).take k := by
              rw [take_dropLast_eq (p0 :: p1 :: prest2) k
                (by simp only [List.length_cons]; omega)]
            have hne_tk : (p0 :: p1 :: prest2).take k ≠ (p0 :: p1 :: prest2) := by
              intro heq
              have hl := congrArg List.length heq
              rw [List.length_take] at hl
              simp only [List.length_cons] at hl
              omega
            constructor
            · intro hemp
              rw [hadds.2.1 _ hne_tk, htk]
              rw [htk] at hemp
              exact (IH1 k hk1 (by rw [hlen']; omega)).1 hemp
            · intro hnemp
              rw [hadds.2.1 _ hne_tk, htk]
              rw [htk] at hnemp
              exact (IH1 k hk1 (by rw [hlen']; omega)).2 hnemp
          · have hkn : k = n := by rw [hlen] at hk2; omega
            subst hkn
            rw [htake_full]
            exact ⟨fun hcon => absurd hcon hlast, fun _ => hadds.1⟩
        · intro q hq
          have hqpath : q ≠ (p0 :: p1 :: prest2) := by
            have hfull := hq n (by omega) (by rw [hlen])
            rwa [htake_full] at hfull
          rw [hadds.2.1 q hqpath]
          refine IH2 q ?_
          intro k' h1 h2
          rw [take_dropLast_eq (p0 :: p1 :: prest2) k'
            (by rw [hlen'] at h2; simp only [List.length_cons]; omega)]
          exact hq k' h1 (by rw [hlen'] at h2; rw [hlen]; omega)

/-- Claim C10: note_point_seen_in_division adds the location to the
division of every prefix of the path whose last element is non-empty —
not only the lowest level — while a prefix ending in an empty name is
skipped: no division is created or touched for that prefix (and keys
that are no prefix at all are untouched either). -/
theorem note_point_adds_to_all_named_ancestors (path : List String)
    (s : GazDivState) (loc : ℕ) (hne : path ≠ []) :
    (∀ k, 1 ≤ k → k ≤ path.length →
      ((path.take k).getLastD "" = "" →
        (note_point_seen_in_division s loc path).2.path_to_division (path.take k)
          = s.path_to_division (path.take k))
      ∧ ((path.take k).getLastD "" ≠ "" →
        ∃ dd, (note_point_seen_in_division s loc path).2.path_to_division (path.take k)
            = some dd ∧ loc ∈ dd.locs))
    ∧ (∀ q : List String, (∀ k, 1 ≤ k → k ≤ path.length → q ≠ path.take k) →
        (note_point_seen_in_division s loc path).2.path_to_division q
          = s.path_to_division q) :=
  note_point_aux path.length path s loc rfl hne

/-- Witness for C10 on the path ("usa", "", "ny"): the location lands in
the divisions of ("usa") and ("usa", "", "ny"), while the prefix
("usa", "") — empty last name — stays absent from the table. -/
theorem note_point_named_ancestors_witness :
    (∃ dd, (note_point_seen_in_division sC10 7 ["usa", "", "ny"]).2.path_to_division
        ["usa"] = some dd ∧ 7 ∈ dd.locs)
    ∧ (note_point_seen_in_division sC10 7 ["usa", "", "ny"]).2.path_to_division
        ["usa", ""] = sC10.path_to_division ["usa", ""]
    ∧ (∃ dd, (note_point_seen_in_division sC10 7 ["usa", "", "ny"]).2.path_to_division
        ["usa", "", "ny"] = some dd ∧ 7 ∈ dd.locs) := by
  have h := note_point_adds_to_all_named_ancestors ["usa", "", "ny"] sC10 7 (by simp)
  have h1 := (h.1 1 (by omega) (by simp)).2 (by simp)
  have h2 := (h.1 2 (by omega) (by simp)).1 (by simp)
  have h3 := (h.1 3 (by omega) (by simp)).2 (by simp)
  exact ⟨by simpa using h1, by simpa using h2, by simpa using h3⟩
